import Mathlib

/-!
Verification of the battleships repository: a shallow embedding of the game
board engine (src/main.py, src/api.py), the network manager
(src/network_manager.py) and the GUI protocol router (gui/main_window.py),
with theorems settling the specified properties.

Coordinates: the Python code addresses cells by string keys, horizontal
x in "1".."10" and vertical y in the ten Cyrillic letters (row keys).
Both key families are in bijection with numerals, and all arithmetic in the
source (`int(x)`, `list(VERTICAL_KEYS.values()).index(y)`) goes through that
bijection, so the embedding uses `Coord := Nat × Nat` with the first
component the 1-based column number (1..10) and the second the 0-based row
index (0..9).  Dictionary membership `y in self.field and x in self.field[y]`
becomes the `inBounds` test.
-/

namespace Battleships

abbrev Coord := Nat × Nat

/-- Membership of a coordinate in the 10 x 10 board dictionaries. -/
def inBounds (c : Coord) : Bool := 1 ≤ c.1 && c.1 ≤ 10 && c.2 < 10

/-- Mutable flags of one `Cell` object (src/main.py, class Cell).  The string
coordinates and the `position` pair are determined by the location of the
cell in the field dictionary and are not repeated here; the `ship` back
reference is recovered by `findShipIdx` below. -/
structure CellState where
  isPartOfShip : Bool
  isHit : Bool
  isMiss : Bool
  isKilled : Bool
  canPlaceShip : Bool
deriving DecidableEq

/-- `Cell.__init__`: fresh flags for a cell that is (or is not) a ship part. -/
def CellState.init (partOfShip : Bool) : CellState :=
  { isPartOfShip := partOfShip, isHit := false, isMiss := false
    isKilled := false, canPlaceShip := true }

/-- One `Ship` object: its cells (in the order `_find_ships` collected them)
and the `is_killed` flag.  `Ship.id` is a string built from the length and
the cell coordinates, hence determined by `cells`; the embedding uses the
cell list itself wherever the source uses the id. -/
structure ShipState where
  cells : List Coord
  isKilled : Bool
deriving DecidableEq

/-- The battlefield: the cell dictionary (total over the 10 x 10 grid, see
`inBounds`) and the ships list. -/
structure BattleField where
  field : Coord → CellState
  ships : List ShipState

/-- Point update of the field dictionary, `self.field[y][x].flag = value`. -/
def updateCell (f : Coord → CellState) (c : Coord) (g : CellState → CellState) :
    Coord → CellState :=
  fun c' => if c' = c then g (f c') else f c'

/-- The `ship` reference stored in a cell: after `_find_ships` every ship
part points at the ship containing it, and the ships found are pairwise
disjoint, so the reference is recovered as the first ship in the list whose
cell list contains the coordinate. -/
def findShipIdx (ships : List ShipState) (c : Coord) : Option Nat :=
  match ships with
  | [] => none
  | s :: rest =>
    if s.cells.contains c then some 0 else (findShipIdx rest c).map (· + 1)

/-- `Ship.kill`: mark every cell of the ship as killed. -/
def killCells (f : Coord → CellState) (cells : List Coord) : Coord → CellState :=
  cells.foldl (fun f c => updateCell f c (fun cs => { cs with isKilled := true })) f

/-- `Ship.check_killed` applied to the ship at index `i` of the ships list:
if some cell is not hit the flag is forced to false, otherwise the ship is
marked killed and `kill` marks all its cells. -/
def checkKilled (bf : BattleField) (i : Nat) : BattleField :=
  match bf.ships[i]? with
  | none => bf
  | some s =>
    if s.cells.all (fun c => (bf.field c).isHit) then
      { field := killCells bf.field s.cells
        ships := bf.ships.set i { s with isKilled := true } }
    else
      { bf with ships := bf.ships.set i { s with isKilled := false } }

/-- `Cell.hit`: mark the cell hit (ship part) or miss (water); on a ship part
with a ship reference, run `check_killed` on that ship. -/
def cellHit (bf : BattleField) (c : Coord) : BattleField :=
  if (bf.field c).isPartOfShip then
    let bf' := { bf with field := updateCell bf.field c (fun cs => { cs with isHit := true }) }
    match findShipIdx bf'.ships c with
    | some i => checkKilled bf' i
    | none => bf'
  else
    { bf with field := updateCell bf.field c (fun cs => { cs with isMiss := true }) }

/-- `BattleField.hit`: out of bounds raises `ValueError` before touching any
state (modelled as returning the field unchanged); an already targeted cell
prints a message and returns; otherwise the cell is hit. -/
def bfHit (bf : BattleField) (c : Coord) : BattleField :=
  if ¬ inBounds c then bf
  else
    let cell := bf.field c
    if cell.isHit || cell.isMiss then bf
    else cellHit bf c

/-- `Cell.get_state`. -/
def cellGetState (cs : CellState) : String :=
  if cs.isHit then "hit"
  else if cs.isMiss then "miss"
  else if cs.isKilled then "killed"
  else if !cs.canPlaceShip && cs.isPartOfShip then "ship"
  else if !cs.canPlaceShip then "occupied"
  else "empty"

/-- `BattleField.is_game_over`: no ship reports state `alive`. -/
def isGameOver (bf : BattleField) : Bool :=
  bf.ships.all (fun s => s.isKilled)

/-- The result dictionary of `make_shot` (src/api.py); the human readable
`message` entry is a pure function of the other entries and is omitted.
`ship_sunk_id` carries the cell list standing for `Ship.id`. -/
structure ShotResult where
  success : Bool
  cellState : Option String
  shipSunkId : Option (List Coord)
  gameOver : Bool
deriving DecidableEq

/-- `make_shot` (src/api.py): bounds check, already-targeted check, then
`BattleField.hit`, reading the cell state, the sunk ship id and the game
over flag afterwards. -/
def makeShot (bf : BattleField) (c : Coord) : ShotResult × BattleField :=
  if ¬ inBounds c then
    ({ success := false, cellState := none, shipSunkId := none, gameOver := false }, bf)
  else
    let cell := bf.field c
    if cell.isHit || cell.isMiss then
      ({ success := false, cellState := some "already_shot", shipSunkId := none
         gameOver := false }, bf)
    else
      let bf' := bfHit bf c
      let cs := cellGetState (bf'.field c)
      let sunk :=
        if cs = "hit" then
          match findShipIdx bf'.ships c with
          | some i =>
            match bf'.ships[i]? with
            | some s => if s.isKilled then some s.cells else none
            | none => none
          | none => none
        else none
      ({ success := true, cellState := some cs, shipSunkId := sunk
         gameOver := isGameOver bf' }, bf')

/-- The result dictionary `make_shot` returns for an already targeted
cell. -/
def alreadyShotResult : ShotResult :=
  { success := false, cellState := some "already_shot", shipSunkId := none
    gameOver := false }

/-- An all-water battlefield used as a concrete test configuration. -/
def emptyBoard : BattleField :=
  { field := fun _ => CellState.init false, ships := [] }

/-- A battlefield holding one single-cell ship at column 1, row 0,
as produced by placing a one-cell ship on an empty board. -/
def oneShipBoard : BattleField :=
  { field := fun c => if c = (1, 0) then
      { CellState.init true with canPlaceShip := false }
    else CellState.init false
    ships := [{ cells := [(1, 0)], isKilled := false }] }

/-!
## Framed transport and connection lifecycle (src/network_manager.py)

Bytes are naturals below 256.  A socket read schedule is a list of chunks:
successive `recv(n)` calls return successive chunks, each truncated to at
most `n` bytes; an exhausted schedule (or an explicit empty chunk) models
`recv` returning the empty bytestring, i.e. the peer closed the stream.
-/

abbrev Chunks := List (List Nat)

/-- `len(message).to_bytes(4, "big")`.  For lengths at or above 2 to the 32
the Python call raises `OverflowError`; those payloads never round trip and
the framing claims assume lengths below that bound. -/
def toBytesBE4 (n : Nat) : List Nat :=
  [n / 2 ^ 24 % 256, n / 2 ^ 16 % 256, n / 2 ^ 8 % 256, n % 256]

/-- `int.from_bytes(length_bytes, "big")` for however many bytes arrived. -/
def fromBytesBE (bs : List Nat) : Nat :=
  bs.foldl (fun acc b => acc * 256 + b) 0

/-- `_send_data` at the byte level: the 4-byte big-endian length followed by
the payload (`sendall` delivers every byte). -/
def sendFrame (payload : List Nat) : List Nat :=
  toBytesBE4 payload.length ++ payload

/-- One `self.conn.recv(n)` call against the read schedule: the next chunk,
truncated to `n` bytes (the rest of an oversized chunk stays pending). -/
def recvBytes (n : Nat) (s : Chunks) : List Nat × Chunks :=
  match s with
  | [] => ([], [])
  | c :: rest => if c.length ≤ n then (c, rest) else (c.take n, c.drop n :: rest)

/-- The payload read loop of `_receive_data`: while fewer than
`message_length` bytes were received, `recv(min(remaining, 4096))`; an empty
read aborts (peer closed).  Returns the collected bytes and the rest of the
schedule, or `none` on abort.  The loop runs at most `remaining` times since
every non-empty read yields at least one byte, so `fuel` is called with
`remaining` and never runs out (`recvLoop_fuel_irrelevant` below would be
provable; the exhaustion branch is unreachable for the uses in this file). -/
def recvLoop (fuel remaining : Nat) (s : Chunks) : Option (List Nat) × Chunks :=
  match fuel, remaining with
  | _, 0 => (some [], s)
  | 0, _ + 1 => (none, s)
  | f + 1, r + 1 =>
    let p := recvBytes (min (r + 1) 4096) s
    if p.1.length = 0 then (none, p.2)
    else
      match recvLoop f (r + 1 - p.1.length) p.2 with
      | (none, s') => (none, s')
      | (some rest, s') => (some (p.1 ++ rest), s')

/-- Outcome of one `_receive_data` call at the byte level. -/
inductive RecvOutcome where
  | closedAtHeader
  | closedAtPayload
  | gotPayload (bytes : List Nat)
deriving DecidableEq

/-- `_receive_data`, byte level: one `recv(4)` for the length prefix (note:
a single call, not a loop), `int.from_bytes` on whatever arrived, then the
payload read loop. -/
def receiveRaw (s : Chunks) : RecvOutcome × Chunks :=
  let p := recvBytes 4 s
  if p.1.length = 0 then (.closedAtHeader, p.2)
  else
    let messageLength := fromBytesBE p.1
    match recvLoop messageLength messageLength p.2 with
    | (none, s') => (.closedAtPayload, s')
    | (some payload, s') => (.gotPayload payload, s')

/-- Connection state of a `NetworkManager`: the flags, whether the two
socket handles are held, whether a status callback is registered, and the
arguments of every status callback invocation so far. -/
structure ConnState where
  isConnected : Bool
  running : Bool
  hasConn : Bool
  hasSocket : Bool
  hasStatusCallback : Bool
  statusReports : List (Bool × String)
deriving DecidableEq

/-- `NetworkManager.disconnect`: a no-op unless connected; otherwise clear
the flags, close and drop both sockets (close errors are swallowed), and
invoke the status callback once if registered. -/
def disconnect (st : ConnState) (reason : String) : ConnState :=
  if st.isConnected then
    let st1 := { st with
      isConnected := false, running := false, hasConn := false, hasSocket := false }
    if st.hasStatusCallback then
      { st1 with statusReports := st.statusReports ++ [(false, reason)] }
    else st1
  else st

/-- `_receive_data` at the message level: guard on `self.conn` and
`self.is_connected`; empty length read disconnects; a failed payload read
disconnects; `json.loads` (the `parse` argument, an external library
function) failing raises `json.JSONDecodeError`, which the handler catches,
logs and turns into `disconnect` plus a `None` result. -/
def receiveData (parse : List Nat → Option α) (st : ConnState) (s : Chunks) :
    Option α × ConnState × Chunks :=
  if st.hasConn && st.isConnected then
    match receiveRaw s with
    | (.closedAtHeader, s') =>
      (none, disconnect st "connection closed by remote side", s')
    | (.closedAtPayload, s') =>
      (none, disconnect st "connection closed by remote side during receive", s')
    | (.gotPayload bs, s') =>
      match parse bs with
      | some v => (some v, st, s')
      | none => (none, disconnect st "receive error: invalid JSON", s')
  else (none, st, s)

/-- A schedule delivering a byte string one byte per read. -/
def oneByteChunks (bs : List Nat) : Chunks := bs.map (fun b => [b])

/-- Total number of bytes a schedule still holds. -/
def totalBytes (s : Chunks) : Nat := (s.map List.length).sum

/-!
## Game protocol router (gui/main_window.py, `_handle_network_message`)

In a network game `current_player_index` is always 0, so `self.players[0]`
is the local player and `self.players[1]` the opponent.  The embedding keeps
the state the `shot` and `shot_result` branches read or write: the two
player names, the game phase, the turn-ownership belief
(`game_manager.current_turn_player_name`), the two battlefields, the
messages sent through the network manager and the number of warning dialogs
shown.  Labels, dialogs and widget interactivity flags are display-only and
not modelled; nothing in either branch touches the network connection state
other than `send_game_data`.
-/

/-- The `shot_result` payload (src of truth: the dictionary built at the
send site in the `shot` branch).  `message` is display-only and omitted;
`shipSunkId` carries the cell list standing for the ship id string. -/
structure ShotResultPayload where
  x : Nat
  y : Nat
  cellState : Option String
  shipSunkId : Option (List Coord)
  gameOver : Bool
deriving DecidableEq

/-- A message passed to `network_manager.send_game_data`. -/
inductive SentMsg where
  | shotResult (p : ShotResultPayload)
  | shot (x y : Nat)
deriving DecidableEq

/-- The window state read and written by the `shot` / `shot_result` branches
of `_handle_network_message`.  `players` is (players[0], players[1]). -/
structure PeerState where
  players : String × String
  gamePhase : String
  currentTurn : Option String
  localBoard : BattleField
  oppBoard : BattleField
  sentMessages : List SentMsg
  warningsShown : Nat

/-- `_switch_turn_network`: if the local player (players[0]) held the turn,
hand it to the opponent, else take it locally. -/
def switchTurnNetwork (st : PeerState) : PeerState :=
  if st.currentTurn = some st.players.1 then
    { st with currentTurn := some st.players.2 }
  else
    { st with currentTurn := some st.players.1 }

/-- The `msg_type == "shot"` branch of `_handle_network_message`: the desync
guard (a warning dialog and an early return when the turn belief names the
local player), then `make_shot` on the local board, the `shot_result` reply,
and the game-over / hit / miss case split, switching the turn on a miss. -/
def handleShotMsg (st : PeerState) (c : Coord) : PeerState :=
  if st.currentTurn = some st.players.1 then
    { st with warningsShown := st.warningsShown + 1 }
  else
    let r := makeShot st.localBoard c
    let st1 := { st with
      localBoard := r.2,
      sentMessages := st.sentMessages ++
        [SentMsg.shotResult { x := c.1, y := c.2, cellState := r.1.cellState,
                              shipSunkId := r.1.shipSunkId, gameOver := r.1.gameOver }] }
    if r.1.gameOver then { st1 with gamePhase := "game_over" }
    else if r.1.cellState = some "hit" ∨ r.1.cellState = some "killed" then st1
    else switchTurnNetwork st1

/-- The `msg_type == "shot_result"` branch of `_handle_network_message`:
mirror the outcome onto the local view of the opponent board (a hit or
killed result sets `is_hit` and `is_part_of_ship`; a miss sets `is_miss`;
the killed sub-case is a `pass`), then the game-over / hit / miss case
split, switching the turn on anything that is neither hit nor killed. -/
def handleShotResultMsg (st : PeerState) (m : ShotResultPayload) : PeerState :=
  let c : Coord := (m.x, m.y)
  let oppB :=
    if m.cellState = some "hit" ∨ m.cellState = some "killed" then
      { st.oppBoard with
        field := updateCell st.oppBoard.field c
          (fun cs => { cs with isHit := true, isPartOfShip := true }) }
    else if m.cellState = some "miss" then
      { st.oppBoard with
        field := updateCell st.oppBoard.field c (fun cs => { cs with isMiss := true }) }
    else st.oppBoard
  let st1 := { st with oppBoard := oppB }
  if m.gameOver then { st1 with gamePhase := "game_over" }
  else if m.cellState = some "hit" ∨ m.cellState = some "killed" then st1
  else switchTurnNetwork st1

/-!
## Ship placement (`BattleField.add_ship` and its helpers, src/main.py)
-/

/-- Iteration order of `_find_ships`: rows in vertical-key order, columns in
numeric order (the sorted-keys traversal of the field dictionaries). -/
def allCoords : List Coord :=
  (List.range 10).bind (fun y => (List.range 10).map (fun i => (i + 1, y)))

/-- `_get_neighbor_directions`: left, right, up, down, kept inside the
grid. -/
def neighborDirections (c : Coord) : List Coord :=
  (if 1 < c.1 then [(c.1 - 1, c.2)] else []) ++
  (if c.1 < 10 then [(c.1 + 1, c.2)] else []) ++
  (if 0 < c.2 then [(c.1, c.2 - 1)] else []) ++
  (if c.2 < 9 then [(c.1, c.2 + 1)] else [])

/-- Coordinates of the grid not yet marked in the `visited` dictionary. -/
def unvisitedCount (visited : List Coord) : Nat :=
  (allCoords.filter (fun x => !(visited.contains x))).length

/-- The BFS inner loop of `_find_ships`: pop the queue head; skip it if
already visited; otherwise mark it visited, append it to the ship cells and
enqueue its unvisited ship-part neighbours.  The queue only ever holds grid
coordinates (Python would raise `KeyError` otherwise), so the out-of-bounds
guard that makes this total is never taken on reachable inputs. -/
def bfs (f : Coord → CellState) (queue visited shipCells : List Coord) :
    List Coord × List Coord :=
  match queue with
  | [] => (shipCells, visited)
  | c :: qrest =>
    if hvis : visited.contains c then bfs f qrest visited shipCells
    else if hin : inBounds c then
      let visited' := c :: visited
      let nbrs := (neighborDirections c).filter
        (fun n => inBounds n && (f n).isPartOfShip && !(visited'.contains n))
      bfs f (qrest ++ nbrs) visited' (shipCells ++ [c])
    else bfs f qrest visited shipCells
termination_by 4 * unvisitedCount visited + queue.length
decreasing_by
· simp only [List.length_cons]; omega
· have hways : ∀ (p : Prop) [Decidable p] (x : Coord),
      (if p then [x] else []).length ≤ 1 := by
    intro p _ x; split <;> simp
  have hnb : (neighborDirections c).length ≤ 4 := by
    unfold neighborDirections
    simp only [List.length_append]
    have h1 := hways (1 < c.1) (c.1 - 1, c.2)
    have h2 := hways (c.1 < 10) (c.1 + 1, c.2)
    have h3 := hways (0 < c.2) (c.1, c.2 - 1)
    have h4 := hways (c.2 < 9) (c.1, c.2 + 1)
    omega
  have hfle : ∀ (l : List Coord) (p : Coord → Bool), (l.filter p).length ≤ l.length := by
    intro l p; exact List.length_filter_le p l
  have hcontains : ∀ (a : Coord), ((c :: visited).contains a) =
      (decide (a = c) || visited.contains a) := by
    intro a; simp [List.contains_cons]
  have hmono : ∀ (l : List Coord),
      (l.filter (fun x => !((c :: visited).contains x))).length ≤
        (l.filter (fun x => !(visited.contains x))).length := by
    intro l
    induction l with
    | nil => simp
    | cons a t ih =>
      by_cases hav : visited.contains a = true
      · have h1 : (!((c :: visited).contains a)) = false := by
          rw [hcontains a, hav]; simp
        have h2 : (!(visited.contains a)) = false := by rw [hav]; simp
        simp only [List.filter_cons, h1, h2, Bool.false_eq_true, if_false]
        omega
      · by_cases hac : a = c
        · have h1 : (!((c :: visited).contains a)) = false := by
            rw [hcontains a]; simp [hac]
          have h2 : (!(visited.contains a)) = true := by
            rw [Bool.eq_false_iff.mpr hav]; rfl
          simp only [List.filter_cons, h1, h2, Bool.false_eq_true, if_false,
            if_true, List.length_cons]
          omega
        · have h1 : (!((c :: visited).contains a)) = true := by
            rw [hcontains a, Bool.eq_false_iff.mpr hav]
            simp [hac]
          have h2 : (!(visited.contains a)) = true := by
            rw [Bool.eq_false_iff.mpr hav]; rfl
          simp only [List.filter_cons, h1, h2, if_true, List.length_cons]
          omega
  have hkey : unvisitedCount (c :: visited) < unvisitedCount visited := by
    have hmem : c ∈ allCoords := by
      obtain ⟨x, y⟩ := c
      simp only [inBounds, Bool.and_eq_true, decide_eq_true_eq] at hin
      simp only [allCoords, List.mem_bind, List.mem_map, List.mem_range]
      exact ⟨y, hin.2, x - 1, by omega, by simp; omega⟩
    unfold unvisitedCount
    have hsplit : ∀ (l : List Coord), c ∈ l →
        (l.filter (fun x => !((c :: visited).contains x))).length <
          (l.filter (fun x => !(visited.contains x))).length := by
      intro l hl
      induction l with
      | nil => cases hl
      | cons a t ih =>
        rcases List.mem_cons.mp hl with hac | hct
        · have h1 : (!((c :: visited).contains a)) = false := by
            rw [hcontains a]; simp [hac]
          have h2 : (!(visited.contains a)) = true := by
            rw [← hac, Bool.eq_false_iff.mpr hvis]; rfl
          have hm := hmono t
          simp only [List.filter_cons, h1, h2, Bool.false_eq_true, if_false,
            if_true, List.length_cons]
          omega
        · by_cases hav : visited.contains a = true
          · have h1 : (!((c :: visited).contains a)) = false := by
              rw [hcontains a, hav]; simp
            have h2 : (!(visited.contains a)) = false := by rw [hav]; simp
            have hi := ih hct
            simp only [List.filter_cons, h1, h2, Bool.false_eq_true, if_false]
            omega
          · by_cases hac2 : a = c
            · have h1 : (!((c :: visited).contains a)) = false := by
                rw [hcontains a]; simp [hac2]
              have h2 : (!(visited.contains a)) = true := by
                rw [Bool.eq_false_iff.mpr hav]; rfl
              have hm := hmono t
              simp only [List.filter_cons, h1, h2, Bool.false_eq_true, if_false,
                if_true, List.length_cons]
              omega
            · have h1 : (!((c :: visited).contains a)) = true := by
                rw [hcontains a, Bool.eq_false_iff.mpr hav]
                simp [hac2]
              have h2 : (!(visited.contains a)) = true := by
                rw [Bool.eq_false_iff.mpr hav]; rfl
              have hi := ih hct
              simp only [List.filter_cons, h1, h2, if_true, List.length_cons]
              omega
    exact hsplit allCoords hmem
  have hq : ((neighborDirections c).filter
      (fun n => inBounds n && (f n).isPartOfShip && !((c :: visited).contains n))).length ≤ 4 :=
    le_trans (hfle _ _) hnb
  simp only [List.length_append, List.length_cons]
  omega
· simp only [List.length_cons]; omega

/-- The outer loop of `_find_ships`: scan the grid in order; start a BFS at
every unvisited ship part; each non-empty BFS result becomes a `Ship`
(freshly constructed, so `is_killed` starts false). -/
def findShipsLoop (f : Coord → CellState) (order visited : List Coord)
    (acc : List ShipState) : List ShipState :=
  match order with
  | [] => acc
  | c :: rest =>
    if !(f c).isPartOfShip || visited.contains c then
      findShipsLoop f rest visited acc
    else
      let r := bfs f [c] visited []
      let acc' := if r.1.isEmpty then acc else acc ++ [{ cells := r.1, isKilled := false }]
      findShipsLoop f rest r.2 acc'

/-- `_find_ships` on a field dictionary. -/
def findShips (f : Coord → CellState) : List ShipState :=
  findShipsLoop f allCoords [] []

/-- `_add_ship_to_field_data`: mark each coordinate a ship part, raising
`ValueError` (and keeping the mutations already made) on the first
out-of-bounds coordinate. -/
def addShipToFieldData (f : Coord → CellState) (coords : List Coord) :
    Option String × (Coord → CellState) :=
  match coords with
  | [] => (none, f)
  | c :: rest =>
    if inBounds c then
      addShipToFieldData (updateCell f c (fun cs => { cs with isPartOfShip := true })) rest
    else (some "Coordinate is out of bounds for ship placement.", f)

/-- The 3 x 3 offset grid of `_disable_surrounding_cells_for_ship`, outer
loop over the row offset, inner loop over the column offset. -/
def surroundingOffsets : List (Int × Int) :=
  [(-1, -1), (-1, 0), (-1, 1), (0, -1), (0, 0), (0, 1), (1, -1), (1, 0), (1, 1)]

/-- Disable placement around one ship cell (the in-grid part of its 3 x 3
neighbourhood, the cell itself included). -/
def disableAround (f : Coord → CellState) (c : Coord) : Coord → CellState :=
  surroundingOffsets.foldl (fun f off =>
    let ny : Int := (c.2 : Int) + off.1
    let nx : Int := (c.1 : Int) + off.2
    if 0 ≤ ny ∧ ny < 10 ∧ 1 ≤ nx ∧ nx ≤ 10 then
      updateCell f (nx.toNat, ny.toNat) (fun cs => { cs with canPlaceShip := false })
    else f) f

/-- `_disable_surrounding_cells_for_ship` over all cells of the new ship. -/
def disableSurroundingCellsForShip (f : Coord → CellState) (shipCells : List Coord) :
    Coord → CellState :=
  shipCells.foldl disableAround f

/-- The per-cell loop of `_is_valid_new_ship_placement`: bounds, overlap and
proximity checks, first failure wins. -/
def checkPlacementCells (bf : BattleField) (coords : List Coord) : Except String Unit :=
  match coords with
  | [] => .ok ()
  | c :: rest =>
    if !(inBounds c) then .error "Coordinate is out of bounds."
    else if (bf.field c).isPartOfShip then .error "Ship overlaps with an existing ship."
    else if !(bf.field c).canPlaceShip then
      .error "Cannot place ship due to proximity to another ship."
    else checkPlacementCells bf rest

/-- Lexicographic tuple comparison, the order of Python `list.sort()` on
`(x_num, y_idx)` pairs. -/
def lexLe (a b : Coord) : Bool :=
  decide (a.1 < b.1 ∨ (a.1 = b.1 ∧ a.2 ≤ b.2))

/-- Insertion into a lexicographically sorted coordinate list. -/
def insertLex (a : Coord) (l : List Coord) : List Coord :=
  match l with
  | [] => [a]
  | b :: rest => if lexLe a b then a :: b :: rest else b :: insertLex a rest

/-- `num_coords.sort()`: lexicographic insertion sort. -/
def sortLex (l : List Coord) : List Coord :=
  match l with
  | [] => []
  | a :: rest => insertLex a (sortLex rest)

/-- The horizontal contiguity loop: consecutive x numbers. -/
def consecutiveX (l : List Coord) : Bool :=
  match l with
  | [] => true
  | [_] => true
  | a :: b :: rest => (b.1 == a.1 + 1) && consecutiveX (b :: rest)

/-- The vertical contiguity loop: consecutive y indices. -/
def consecutiveY (l : List Coord) : Bool :=
  match l with
  | [] => true
  | [_] => true
  | a :: b :: rest => (b.2 == a.2 + 1) && consecutiveY (b :: rest)

/-- `_is_valid_new_ship_placement`: empty check, per-cell checks, the
single-cell shortcut, then straightness and contiguity on the sorted
numeric coordinates.  Errors are `ValueError`s in the source. -/
def isValidNewShipPlacement (bf : BattleField) (coords : List Coord) : Except String Unit :=
  if coords.isEmpty then .error "Ship coordinates cannot be empty."
  else
    match checkPlacementCells bf coords with
    | .error e => .error e
    | .ok _ =>
      if coords.length = 1 then .ok ()
      else
        let numCoords := sortLex coords
        let isHorizontal := numCoords.all (fun c => c.2 == (numCoords.headD (0, 0)).2)
        let isVertical := numCoords.all (fun c => c.1 == (numCoords.headD (0, 0)).1)
        if !(isHorizontal || isVertical) then
          .error "Ship must be placed in a straight line (horizontal or vertical)."
        else if isHorizontal then
          if consecutiveX numCoords then .ok ()
          else .error "Horizontal ship cells are not contiguous."
        else
          if consecutiveY numCoords then .ok ()
          else .error "Vertical ship cells are not contiguous."

/-- `BattleField.add_ship`: validate, mark the cells, re-find all ships,
disable placement around the new ship.  The first component is the raised
`ValueError` message, if any; the second the battlefield object as the call
leaves it. -/
def addShip (bf : BattleField) (coords : List Coord) : Option String × BattleField :=
  match isValidNewShipPlacement bf coords with
  | .error e => (some e, bf)
  | .ok _ =>
    match addShipToFieldData bf.field coords with
    | (some e, f') => (some e, { bf with field := f' })
    | (none, f') =>
      let ships := findShips f'
      let fDisabled := disableSurroundingCellsForShip f' coords
      (none, { field := fDisabled, ships := ships })

/-!
## Invariants and concrete fixtures
-/

/-- A whole sequence of `BattleField.hit` calls. -/
def applyShots (bf : BattleField) (shots : List Coord) : BattleField :=
  shots.foldl bfHit bf

/-- No coordinate occurs in two of the given cell lists. -/
def cellListsDisjoint (ls : List (List Coord)) : Bool :=
  match ls with
  | [] => true
  | cs :: rest =>
    rest.all (fun ds => cs.all (fun c => !(ds.contains c))) && cellListsDisjoint rest

/-- The ships of a battlefield occupy pairwise disjoint cell sets, the state
`_find_ships` always leaves behind. -/
def shipsDisjoint (bf : BattleField) : Bool :=
  cellListsDisjoint (bf.ships.map (fun s => s.cells))

/-- The sunk-ship invariant: every ship is flagged killed exactly when all
its cells are hit, and the cells of a killed ship carry the killed mark. -/
def shipInvB (bf : BattleField) : Bool :=
  bf.ships.all (fun s =>
    (s.isKilled == s.cells.all (fun c => (bf.field c).isHit)) &&
    (!s.isKilled || s.cells.all (fun c => (bf.field c).isKilled)))

/-- Every cell of every ship is hit. -/
def allShipsAllHit (bf : BattleField) : Bool :=
  bf.ships.all (fun s => s.cells.all (fun c => (bf.field c).isHit))

/-- A board whose cell (3, 2) was already shot at (and missed). -/
def targetedBoard : BattleField :=
  { field := updateCell emptyBoard.field (3, 2) (fun cs => { cs with isMiss := true })
    ships := [] }

/-- A live connection with a registered status callback and no reports yet. -/
def connSt0 : ConnState :=
  { isConnected := true, running := true, hasConn := true, hasSocket := true
    hasStatusCallback := true, statusReports := [] }

/-- A network-game window state: local player Host, opponent Client, battle
in progress, the local board holding one live ship, turn owned by Host. -/
def peerS0 : PeerState :=
  { players := ("Host", "Client"), gamePhase := "in_progress"
    currentTurn := some "Host", localBoard := oneShipBoard, oppBoard := emptyBoard
    sentMessages := [], warningsShown := 0 }

/-- The same window state with the turn owned by the opponent. -/
def peerR0 : PeerState :=
  { peerS0 with currentTurn := some "Client" }

/-- A `shot_result` reporting a miss at (5, 2). -/
def missMsg : ShotResultPayload :=
  { x := 5, y := 2, cellState := some "miss", shipSunkId := none, gameOver := false }

/-- A `shot_result` reporting a hit at (5, 2). -/
def hitMsg : ShotResultPayload :=
  { x := 5, y := 2, cellState := some "hit", shipSunkId := none, gameOver := false }

/-- The byte string a read schedule delivers in total. -/
def streamBytes (s : Chunks) : List Nat :=
  s.foldr (fun c acc => c ++ acc) []

/-!
## Theorems
-/

/-- Claim C7 — idempotent disconnect: from a connected state with a
registered status callback, the first `disconnect` clears the connection
flags, drops both sockets and reports disconnected through the status
callback exactly once; a second `disconnect` straight after is a no-op on
the whole connection state (in particular closing the already-closed
connection adds no further callback report and changes nothing). -/
theorem disconnect_twice_one_report (st : ConnState) (r1 r2 : String)
    (hconn : st.isConnected = true) (hcb : st.hasStatusCallback = true) :
    disconnect (disconnect st r1) r2 = disconnect st r1 ∧
    (disconnect st r1).statusReports = st.statusReports ++ [(false, r1)] ∧
    (disconnect st r1).isConnected = false ∧
    (disconnect st r1).running = false ∧
    (disconnect st r1).hasConn = false ∧
    (disconnect st r1).hasSocket = false := by
  simp [disconnect, hconn, hcb]

/-- Witness for C7 at the concrete live connection `connSt0`. -/
theorem disconnect_twice_one_report_witness :
    disconnect (disconnect connSt0 "bye" ) "again" = disconnect connSt0 "bye" ∧
    (disconnect connSt0 "bye").statusReports = connSt0.statusReports ++ [(false, "bye")] ∧
    (disconnect connSt0 "bye").isConnected = false ∧
    (disconnect connSt0 "bye").running = false ∧
    (disconnect connSt0 "bye").hasConn = false ∧
    (disconnect connSt0 "bye").hasSocket = false :=
  disconnect_twice_one_report connSt0 "bye" "again" rfl rfl

/-- Claim C8 — `make_shot` on an in-bounds cell that was already targeted
(hit or missed) fails with `cell_state = "already_shot"` and returns the
battlefield unchanged. -/
theorem makeShot_already_targeted (bf : BattleField) (c : Coord)
    (hin : inBounds c = true)
    (htarg : ((bf.field c).isHit || (bf.field c).isMiss) = true) :
    makeShot bf c = (alreadyShotResult, bf) := by
  simp [makeShot, alreadyShotResult, hin, htarg]

/-- Witness for C8: shooting the already-missed cell (3, 2) of
`targetedBoard`. -/
theorem makeShot_already_targeted_witness :
    inBounds (3, 2) = true ∧
    ((targetedBoard.field (3, 2)).isHit || (targetedBoard.field (3, 2)).isMiss) = true ∧
    makeShot targetedBoard (3, 2) = (alreadyShotResult, targetedBoard) :=
  ⟨by decide, by decide, makeShot_already_targeted targetedBoard (3, 2) (by decide) (by decide)⟩

/-- Claim C6 — desync detection: whenever the local turn-ownership belief
names the local player, handling a received `shot` raises the warning
counter and changes nothing else: no cell is hit, no `shot_result` is sent,
phase and turn belief stay, and nothing touches the connection. -/
theorem handleShot_desync_no_mutation (st : PeerState) (c : Coord)
    (hturn : st.currentTurn = some st.players.1) :
    handleShotMsg st c = { st with warningsShown := st.warningsShown + 1 } := by
  unfold handleShotMsg
  rw [if_pos hturn]

/-- Witness for C6 at the concrete state `peerS0` (turn belief Host, local
player Host). -/
theorem handleShot_desync_no_mutation_witness :
    handleShotMsg peerS0 (4, 4) = { peerS0 with warningsShown := peerS0.warningsShown + 1 } :=
  handleShot_desync_no_mutation peerS0 (4, 4) rfl

/-- Claim C1 — framing round-trip, evaluated at the failing input: the frame
for the one-byte payload `[65]` is `[0, 0, 0, 1, 65]`; delivered one byte
per read, the single `recv(4)` for the length prefix returns just `[0]`,
`int.from_bytes` parses length 0, and the receive path returns the empty
payload, leaving the remaining four bytes in the stream — the round trip
the claim states fails because the header read does not loop on partial
reads. -/
theorem receiveRaw_split_header_loses_payload :
    streamBytes (oneByteChunks (sendFrame [65])) = sendFrame [65] ∧
    receiveRaw (oneByteChunks (sendFrame [65])) =
      (.gotPayload [], [[0], [0], [1], [65]]) ∧
    RecvOutcome.gotPayload [] ≠ RecvOutcome.gotPayload [65] := by
  decide

/-- Counterexample to claim C4: a complete, well-framed message whose
payload fails JSON parsing is dropped, but the connection does NOT stay
connected — the receive path calls `disconnect`, which clears the connected
flag and fires the status callback with a disconnected report. -/
theorem receiveData_malformed_tears_down_cex :
    (receiveData (fun _ => (none : Option Unit)) connSt0 [[0, 0, 0, 1, 123]]).1 = none ∧
    (receiveData (fun _ => (none : Option Unit)) connSt0 [[0, 0, 0, 1, 123]]).2.1.isConnected
      = false ∧
    (receiveData (fun _ => (none : Option Unit)) connSt0 [[0, 0, 0, 1, 123]]).2.1.statusReports
      = [(false, "receive error: invalid JSON")] := by
  decide

/-- Claim C4 as amended: on a frame whose payload is not valid JSON the
receive path does not crash and drops the message (returns no message), but
it also tears the connection down: `disconnect` runs, so the state is no
longer connected and the status callback reports the disconnect. -/
theorem receiveData_malformed_drops_and_disconnects {α : Type}
    (parse : List Nat → Option α) (st : ConnState) (s s' : Chunks) (bs : List Nat)
    (hconn : st.isConnected = true) (hc : st.hasConn = true)
    (hraw : receiveRaw s = (.gotPayload bs, s')) (hp : parse bs = none) :
    receiveData parse st s = (none, disconnect st "receive error: invalid JSON", s') := by
  simp [receiveData, hconn, hc, hraw, hp]

/-- Witness for the amended C4 at a concrete malformed frame. -/
theorem receiveData_malformed_drops_and_disconnects_witness :
    receiveData (fun _ => (none : Option Unit)) connSt0 [[0, 0, 0, 1, 123]] =
      (none, disconnect connSt0 "receive error: invalid JSON", []) :=
  receiveData_malformed_drops_and_disconnects (fun _ => none) connSt0
    [[0, 0, 0, 1, 123]] [] [123] rfl rfl (by decide) rfl

/-- Counterexample to claim C5: with the pathological length prefix
`0xFFFFFFFF` (4294967295, far beyond any sane cap) followed by three more
bytes, the receive path does not reject or drop the frame — it enters the
payload read loop, consumes the entire remaining stream, and ends in the
peer-closed disconnect path; no protocol-error outcome exists in the code. -/
theorem receiveRaw_huge_length_reads_on_cex :
    fromBytesBE [255, 255, 255, 255] = 4294967295 ∧
    receiveRaw [[255, 255, 255, 255], [1, 2, 3]] = (.closedAtPayload, []) := by
  decide

/-- If the stream holds fewer bytes than the loop still expects (and closes
after them), the payload read loop consumes everything and fails. -/
theorem recvLoop_exhaust (fuel : Nat) : ∀ (remaining : Nat) (s : Chunks),
    remaining ≤ fuel → 0 < remaining → (∀ ch ∈ s, ch ≠ []) →
    totalBytes s < remaining → recvLoop fuel remaining s = (none, []) := by
  induction fuel with
  | zero => intro remaining s hle hpos _ _; omega
  | succ f ih =>
    intro remaining s hle hpos hne htot
    obtain ⟨r, rfl⟩ : ∃ r, remaining = r + 1 := ⟨remaining - 1, by omega⟩
    cases s with
    | nil =>
      show recvLoop (f + 1) (r + 1) [] = (none, [])
      simp [recvLoop, recvBytes]
    | cons ch rest =>
      have hch : ch ≠ [] := hne ch (List.mem_cons_self ch rest)
      have hchlen : 0 < ch.length := List.length_pos.mpr hch
      have htot' : ch.length + totalBytes rest < r + 1 := by
        simpa [totalBytes] using htot
      show recvLoop (f + 1) (r + 1) (ch :: rest) = (none, [])
      rw [recvLoop]
      by_cases hlen : ch.length ≤ min (r + 1) 4096
      · simp only [recvBytes, hlen, if_pos]
        have h0 : ¬ (ch.length = 0) := by omega
        rw [if_neg h0]
        have hrec : recvLoop f (r + 1 - ch.length) rest = (none, []) := by
          apply ih
          · omega
          · omega
          · intro d hd; exact hne d (List.mem_cons_of_mem ch hd)
          · omega
        rw [hrec]
      · simp only [recvBytes, hlen, if_neg, if_false]
        have hmin : 0 < min (r + 1) 4096 := by omega
        have htk : (ch.take (min (r + 1) 4096)).length = min (r + 1) 4096 := by
          rw [List.length_take]
          omega
        have h0 : ¬ ((ch.take (min (r + 1) 4096)).length = 0) := by omega
        rw [if_neg h0]
        have hrec : recvLoop f (r + 1 - (ch.take (min (r + 1) 4096)).length)
            (ch.drop (min (r + 1) 4096) :: rest) = (none, []) := by
          apply ih
          · omega
          · omega
          · intro d hd
            rcases List.mem_cons.mp hd with hd1 | hd2
            · subst hd1
              have : 0 < (ch.drop (min (r + 1) 4096)).length := by
                rw [List.length_drop]; omega
              exact List.ne_nil_of_length_pos this
            · exact hne d (List.mem_cons_of_mem ch hd2)
          · have : totalBytes (ch.drop (min (r + 1) 4096) :: rest) =
                (ch.length - min (r + 1) 4096) + totalBytes rest := by
              simp [totalBytes, List.length_drop]
            omega
        rw [hrec]

/-- Claim C5 as amended: the code enforces no length cap at all.  When the
4-byte prefix arrives in one read and decodes to a length larger than the
bytes the stream will ever deliver, `_receive_data` attempts the whole
multi-gigabyte read: it consumes every remaining byte of the stream and
ends in the peer-closed disconnect path; no `ProtocolError`-style rejection
exists (the code does not crash: the outcome is an ordinary disconnect). -/
theorem receiveRaw_huge_length_no_guard (hdr : List Nat) (rest : Chunks)
    (hlen : hdr.length = 4) (hpos : 0 < fromBytesBE hdr)
    (hne : ∀ ch ∈ rest, ch ≠ []) (htot : totalBytes rest < fromBytesBE hdr) :
    receiveRaw (hdr :: rest) = (.closedAtPayload, []) := by
  unfold receiveRaw
  have h4 : hdr.length ≤ 4 := by omega
  simp only [recvBytes, h4, if_pos]
  have h0 : ¬ (hdr.length = 0) := by omega
  rw [if_neg h0]
  rw [recvLoop_exhaust (fromBytesBE hdr) (fromBytesBE hdr) rest (le_refl _) hpos hne htot]

/-- Witness for the amended C5: prefix `0xFFFFFFFF`, two payload bytes
available before the stream closes. -/
theorem receiveRaw_huge_length_no_guard_witness :
    receiveRaw [[255, 255, 255, 255], [9, 9]] = (.closedAtPayload, []) :=
  receiveRaw_huge_length_no_guard [255, 255, 255, 255] [[9, 9]] rfl (by decide)
    (by decide) (by decide)

/-- A successful per-cell placement check certifies that every coordinate of
the prospective ship is in bounds. -/
theorem checkPlacementCells_ok_bounds (bf : BattleField) :
    ∀ (coords : List Coord), checkPlacementCells bf coords = .ok () →
    ∀ c ∈ coords, inBounds c = true := by
  intro coords
  induction coords with
  | nil => intro _ c hc; cases hc
  | cons a rest ih =>
    intro h c hc
    rw [checkPlacementCells] at h
    by_cases hb : inBounds a = true
    · simp only [hb, Bool.not_true, Bool.false_eq_true, if_false] at h
      rcases List.mem_cons.mp hc with rfl | hc'
      · exact hb
      · split at h
        · cases h
        · split at h
          · cases h
          · exact ih h c hc'
    · have hbt : (!(inBounds a)) = true := by
        rw [Bool.eq_false_iff.mpr hb]; rfl
      rw [if_pos hbt] at h
      cases h

/-- Marking the ship cells never raises once all coordinates are in
bounds. -/
theorem addShipToFieldData_none (coords : List Coord) : ∀ (f : Coord → CellState),
    (∀ c ∈ coords, inBounds c = true) → (addShipToFieldData f coords).1 = none := by
  induction coords with
  | nil => intro f _; rfl
  | cons a rest ih =>
    intro f hb
    rw [addShipToFieldData]
    rw [if_pos (hb a (List.mem_cons_self a rest))]
    exact ih _ (fun c hc => hb c (List.mem_cons_of_mem a hc))

/-- A successful `_is_valid_new_ship_placement` implies a successful
per-cell check. -/
theorem isValid_ok_cells (bf : BattleField) (coords : List Coord) (u : Unit)
    (h : isValidNewShipPlacement bf coords = .ok u) :
    checkPlacementCells bf coords = .ok () := by
  unfold isValidNewShipPlacement at h
  by_cases he : coords.isEmpty = true
  · rw [if_pos he] at h; cases h
  · rw [if_neg he] at h
    cases hc : checkPlacementCells bf coords with
    | error e => rw [hc] at h; cases h
    | ok v => cases v; rfl

/-- Claim C9 — atomic ship placement: whenever `add_ship` raises
(`ValueError` on empty, out-of-bounds, overlapping, too-close, bent or
non-contiguous coordinates), the battlefield object is left exactly as it
was: all validation runs before any mutation, and a validated placement can
no longer fail while mutating. -/
theorem addShip_reject_leaves_unchanged (bf : BattleField) (coords : List Coord)
    (e : String) (bf' : BattleField) (h : addShip bf coords = (some e, bf')) :
    bf' = bf := by
  unfold addShip at h
  cases hv : isValidNewShipPlacement bf coords with
  | error e2 =>
    rw [hv] at h
    injection h with h1 h2
    exact h2.symm
  | ok u =>
    rw [hv] at h
    have hbounds : ∀ c ∈ coords, inBounds c = true :=
      checkPlacementCells_ok_bounds bf coords (isValid_ok_cells bf coords u hv)
    have hnone := addShipToFieldData_none coords bf.field hbounds
    rcases hfd : addShipToFieldData bf.field coords with ⟨o, f2⟩
    rw [hfd] at h hnone
    cases o with
    | some e2 => cases hnone
    | none =>
      injection h with h1 h2
      cases h1

/-- Witness for C9: a bent two-cell placement on the empty board is
rejected and the board is returned untouched. -/
theorem addShip_reject_leaves_unchanged_witness :
    (addShip emptyBoard [(1, 0), (3, 0)]).2 = emptyBoard :=
  addShip_reject_leaves_unchanged emptyBoard [(1, 0), (3, 0)]
    "Horizontal ship cells are not contiguous."
    (addShip emptyBoard [(1, 0), (3, 0)]).2 rfl

/-- `_switch_turn_network` hands the turn to the local player when the
opponent held it. -/
theorem switchTurnNetwork_to_local (st : PeerState)
    (h : st.currentTurn = some st.players.2) (hne : st.players.1 ≠ st.players.2) :
    (switchTurnNetwork st).currentTurn = some st.players.1 := by
  have hnc : ¬ (st.currentTurn = some st.players.1) := by
    rw [h]
    intro heq
    injection heq with h2
    exact hne h2.symm
  unfold switchTurnNetwork
  rw [if_neg hnc]

/-- `_switch_turn_network` hands the turn to the opponent when the local
player held it. -/
theorem switchTurnNetwork_to_opponent (st : PeerState)
    (h : st.currentTurn = some st.players.1) :
    (switchTurnNetwork st).currentTurn = some st.players.2 := by
  unfold switchTurnNetwork
  rw [if_pos h]

/-- `_switch_turn_network` only touches the turn belief and the display,
never the outbox. -/
theorem switchTurnNetwork_sentMessages (st : PeerState) :
    (switchTurnNetwork st).sentMessages = st.sentMessages := by
  unfold switchTurnNetwork
  split <;> rfl

/-- `_switch_turn_network` never changes the player names. -/
theorem switchTurnNetwork_players (st : PeerState) :
    (switchTurnNetwork st).players = st.players := by
  unfold switchTurnNetwork
  split <;> rfl

/-- The `shot_result` branch never changes the player names. -/
theorem handleShotResultMsg_players (st : PeerState) (m : ShotResultPayload) :
    (handleShotResultMsg st m).players = st.players := by
  simp only [handleShotResultMsg]
  split
  · rfl
  · split
    · rfl
    · rw [switchTurnNetwork_players]

/-- `_switch_turn_network` stated through explicit player names. -/
theorem switchTurnNetwork_to_local_pair (st : PeerState) (p q : String)
    (hp : st.players = (p, q)) (h : st.currentTurn = some q) (hne : p ≠ q) :
    (switchTurnNetwork st).currentTurn = some p := by
  have hnc : ¬ (st.currentTurn = some st.players.1) := by
    rw [h, hp]
    intro heq
    injection heq with h2
    exact hne h2.symm
  unfold switchTurnNetwork
  rw [if_neg hnc, hp]

/-- Claim C2 — turn-flip determinism: with the battle in progress, the
receiver of a `shot` (turn belief: opponent) applies the shot, replies
`shot_result`, and flips its turn belief to the local player exactly when
the result is a miss with the game still on; the shooter (turn belief:
local) flips to the opponent exactly on receiving such a miss result; a
`hit` or `killed` result leaves both turn beliefs untouched. -/
theorem shot_exchange_turn_flip (R S : PeerState) (c : Coord) (m : ShotResultPayload)
    (hphase : R.gamePhase = "in_progress")
    (hRturn : R.currentTurn = some R.players.2)
    (hRne : R.players.1 ≠ R.players.2)
    (hSturn : S.currentTurn = some S.players.1) :
    ((makeShot R.localBoard c).1.cellState = some "miss" →
      (makeShot R.localBoard c).1.gameOver = false →
      (handleShotMsg R c).currentTurn = some R.players.1 ∧
      (handleShotMsg R c).sentMessages = R.sentMessages ++
        [SentMsg.shotResult { x := c.1, y := c.2
                              cellState := (makeShot R.localBoard c).1.cellState
                              shipSunkId := (makeShot R.localBoard c).1.shipSunkId
                              gameOver := (makeShot R.localBoard c).1.gameOver }]) ∧
    (m.cellState = some "miss" → m.gameOver = false →
      (handleShotResultMsg S m).currentTurn = some S.players.2) ∧
    (((makeShot R.localBoard c).1.cellState = some "hit" ∨
        (makeShot R.localBoard c).1.cellState = some "killed") →
      (makeShot R.localBoard c).1.gameOver = false →
      (handleShotMsg R c).currentTurn = R.currentTurn) ∧
    ((m.cellState = some "hit" ∨ m.cellState = some "killed") → m.gameOver = false →
      (handleShotResultMsg S m).currentTurn = S.currentTurn) := by
  have hguard : ¬ (R.currentTurn = some R.players.1) := by
    rw [hRturn]
    intro heq
    injection heq with h2
    exact hRne h2.symm
  have hdmiss : (((some "miss" : Option String) = some "hit") ∨
      ((some "miss" : Option String) = some "killed")) = False :=
    eq_false (by decide)
  refine ⟨?_, ?_, ?_, ?_⟩
  · intro hmiss hgo
    simp only [handleShotMsg, if_neg hguard, hmiss, hgo, Bool.false_eq_true, if_false,
      hdmiss]
    constructor
    · exact switchTurnNetwork_to_local _ hRturn hRne
    · exact switchTurnNetwork_sentMessages _
  · intro hmiss hgo
    simp only [handleShotResultMsg, hmiss, hgo, Bool.false_eq_true, if_false, hdmiss]
    exact switchTurnNetwork_to_opponent _ hSturn
  · intro hhit hgo
    simp only [handleShotMsg, if_neg hguard, hgo, Bool.false_eq_true, if_false,
      if_pos hhit]
  · intro hhit hgo
    simp only [handleShotResultMsg, hgo, Bool.false_eq_true, if_false, if_pos hhit]

/-- Witness for C2: receiver `peerR0` handling a missing `shot` at (5, 2)
flips to Host; shooter `peerS0` flips to Client on the miss result and
keeps the turn on a hit result. -/
theorem shot_exchange_turn_flip_witness :
    (handleShotMsg peerR0 (5, 2)).currentTurn = some peerR0.players.1 ∧
    (handleShotResultMsg peerS0 missMsg).currentTurn = some peerS0.players.2 ∧
    (handleShotResultMsg peerS0 hitMsg).currentTurn = peerS0.currentTurn :=
  ⟨((shot_exchange_turn_flip peerR0 peerS0 (5, 2) missMsg rfl rfl (by decide) rfl).1
      (by decide) (by decide)).1,
   (shot_exchange_turn_flip peerR0 peerS0 (5, 2) missMsg rfl rfl (by decide) rfl).2.1
      rfl rfl,
   (shot_exchange_turn_flip peerR0 peerS0 (5, 2) hitMsg rfl rfl (by decide) rfl).2.2.2
      (Or.inl rfl) rfl⟩

/-- Counterexample to claim C3: delivering the very same miss `shot_result`
twice flips the turn belief a second time — the router never checks the
coordinate state before mutating, so the second delivery is not a no-op on
turn ownership. -/
theorem shotResult_redelivery_reflips_cex :
    (handleShotResultMsg peerS0 missMsg).currentTurn = some "Client" ∧
    (handleShotResultMsg (handleShotResultMsg peerS0 missMsg) missMsg).currentTurn
      = some "Host" ∧
    (handleShotResultMsg (handleShotResultMsg peerS0 missMsg) missMsg).currentTurn ≠
      (handleShotResultMsg peerS0 missMsg).currentTurn := by
  refine ⟨rfl, rfl, by decide⟩

/-- Claim C3 as amended: redelivering a `hit`/`killed` result (game not
over) is fully idempotent — the second handling repeats the same cell marks
and changes nothing — but redelivering a `miss` result flips the turn
belief again, handing it back to the original owner: no coordinate-state
guard exists. -/
theorem shotResult_redelivery_amended (st : PeerState) (m : ShotResultPayload) :
    ((m.cellState = some "hit" ∨ m.cellState = some "killed") → m.gameOver = false →
      handleShotResultMsg (handleShotResultMsg st m) m = handleShotResultMsg st m) ∧
    (m.cellState = some "miss" → m.gameOver = false →
      st.currentTurn = some st.players.1 → st.players.1 ≠ st.players.2 →
      (handleShotResultMsg st m).currentTurn = some st.players.2 ∧
      (handleShotResultMsg (handleShotResultMsg st m) m).currentTurn
        = some st.players.1) := by
  constructor
  · intro hm hgo
    have hupd : ∀ (f : Coord → CellState) (c : Coord),
        updateCell (updateCell f c (fun cs => { cs with isHit := true, isPartOfShip := true}))
          c (fun cs => { cs with isHit := true, isPartOfShip := true}) =
        updateCell f c (fun cs => { cs with isHit := true, isPartOfShip := true}) := by
      intro f c
      funext c'
      unfold updateCell
      by_cases h : c' = c <;> simp [h]
    simp only [handleShotResultMsg, if_pos hm, hgo, Bool.false_eq_true, if_false]
    simp only [hupd]
  · intro hm hgo hturn hne
    have hdmiss : (((some "miss" : Option String) = some "hit") ∨
        ((some "miss" : Option String) = some "killed")) = False :=
      eq_false (by decide)
    have hstep : (handleShotResultMsg st m).currentTurn = some st.players.2 := by
      simp only [handleShotResultMsg, hm, hgo, Bool.false_eq_true, if_false, hdmiss]
      exact switchTurnNetwork_to_opponent _ hturn
    refine ⟨hstep, ?_⟩
    conv_lhs => rw [handleShotResultMsg]
    simp only [hm, hgo, Bool.false_eq_true, if_false, hdmiss]
    apply switchTurnNetwork_to_local_pair _ st.players.1 st.players.2
    · show (handleShotResultMsg st m).players = (st.players.1, st.players.2)
      rw [handleShotResultMsg_players]
    · exact hstep
    · exact hne

/-- Witness for the amended C3 at the concrete shooter state `peerS0`. -/
theorem shotResult_redelivery_amended_witness :
    handleShotResultMsg (handleShotResultMsg peerS0 hitMsg) hitMsg
      = handleShotResultMsg peerS0 hitMsg ∧
    (handleShotResultMsg peerS0 missMsg).currentTurn = some peerS0.players.2 ∧
    (handleShotResultMsg (handleShotResultMsg peerS0 missMsg) missMsg).currentTurn
      = some peerS0.players.1 :=
  ⟨(shotResult_redelivery_amended peerS0 hitMsg).1 (Or.inl rfl) rfl,
   ((shotResult_redelivery_amended peerS0 missMsg).2 rfl rfl rfl (by decide)).1,
   ((shotResult_redelivery_amended peerS0 missMsg).2 rfl rfl rfl (by decide)).2⟩

/-- Congruence for `List.all` under a pointwise-equal predicate. -/
theorem all_congr_list {α : Type} (l : List α) (p q : α → Bool)
    (h : ∀ x ∈ l, p x = q x) : l.all p = l.all q := by
  induction l with
  | nil => rfl
  | cons a t ih =>
    rw [List.all_cons, List.all_cons, h a (List.mem_cons_self a t),
      ih (fun x hx => h x (List.mem_cons_of_mem a hx))]

/-- A successful indexed lookup implies the index is within bounds. -/
theorem lt_length_of_getElem? {α : Type} {l : List α} {i : Nat} {x : α}
    (h : l[i]? = some x) : i < l.length := by
  by_contra hlt
  rw [List.getElem?_eq_none (by omega)] at h
  cases h

/-- Pointwise description of `Ship.kill`. -/
theorem killCells_apply (cells : List Coord) : ∀ (f : Coord → CellState) (c' : Coord),
    killCells f cells c' =
      if cells.contains c' then { f c' with isKilled := true } else f c' := by
  induction cells with
  | nil => intro f c'; simp [killCells]
  | cons a rest ih =>
    intro f c'
    have hstep : killCells f (a :: rest) =
        killCells (updateCell f a (fun cs => { cs with isKilled := true })) rest := rfl
    rw [hstep, ih]
    have hcont : ((a :: rest).contains c') = (decide (c' = a) || rest.contains c') := by
      simp [List.contains_cons, eq_comm]
    rw [hcont]
    by_cases hr : rest.contains c' = true
    · rw [if_pos hr]
      have : (decide (c' = a) || rest.contains c') = true := by rw [hr]; simp
      rw [if_pos this]
      unfold updateCell
      by_cases ha : c' = a <;> simp [ha]
    · rw [if_neg (by rw [Bool.eq_false_iff.mpr hr]; simp)]
      by_cases ha : c' = a
      · have : (decide (c' = a) || rest.contains c') = true := by
          rw [Bool.eq_false_iff.mpr hr]; simp [ha]
        rw [if_pos this]
        unfold updateCell
        simp [ha]
      · have : (decide (c' = a) || rest.contains c') = false := by
          rw [Bool.eq_false_iff.mpr hr]; simp [ha]
        rw [if_neg (by rw [this]; simp)]
        unfold updateCell
        simp [ha]

/-- A found ship index points at a ship whose cells contain the
coordinate. -/
theorem findShipIdx_some (ships : List ShipState) (c : Coord) :
    ∀ i, findShipIdx ships c = some i →
    ∃ s, ships[i]? = some s ∧ s.cells.contains c = true := by
  induction ships with
  | nil => intro i h; cases h
  | cons s rest ih =>
    intro i h
    rw [findShipIdx] at h
    by_cases hc : s.cells.contains c = true
    · rw [if_pos hc] at h
      injection h with h1
      exact h1 ▸ ⟨s, by simp, hc⟩
    · rw [if_neg (by rw [Bool.eq_false_iff.mpr hc]; simp)] at h
      rcases Option.map_eq_some'.mp h with ⟨j, hj, hji⟩
      rcases ih j hj with ⟨t, ht, htc⟩
      refine ⟨t, ?_, htc⟩
      rw [← hji]
      simpa using ht

/-- When no ship index is found, no ship contains the coordinate. -/
theorem findShipIdx_none (ships : List ShipState) (c : Coord)
    (h : findShipIdx ships c = none) :
    ∀ s ∈ ships, s.cells.contains c = false := by
  induction ships with
  | nil => intro s hs; cases hs
  | cons t rest ih =>
    intro s hs
    rw [findShipIdx] at h
    by_cases hc : t.cells.contains c = true
    · rw [if_pos hc] at h; cases h
    · rw [if_neg (by rw [Bool.eq_false_iff.mpr hc]; simp)] at h
      rcases List.mem_cons.mp hs with rfl | hs'
      · exact Bool.eq_false_iff.mpr hc
      · exact ih (Option.map_eq_none'.mp h) s hs'

/-- Positional reading of pairwise disjointness: cell lists at two distinct
indices share no coordinate. -/
theorem cellListsDisjoint_two (ls : List (List Coord)) :
    cellListsDisjoint ls = true →
    ∀ (i j : Nat) (csi csj : List Coord), i ≠ j → ls[i]? = some csi → ls[j]? = some csj →
    ∀ x, csi.contains x = true → csj.contains x = false := by
  induction ls with
  | nil => intro _ i j csi csj _ hi; cases hi
  | cons cs rest ih =>
    intro h i j csi csj hij hi hj x hx
    rw [cellListsDisjoint, Bool.and_eq_true] at h
    obtain ⟨hall, hrest⟩ := h
    rw [List.all_eq_true] at hall
    cases i with
    | zero =>
      have hcsi : csi = cs := by symm; simpa using hi
      cases j with
      | zero => exact absurd rfl hij
      | succ j' =>
        have hjm : csj ∈ rest := List.getElem?_mem (by simpa using hj)
        have := hall csj hjm
        rw [List.all_eq_true] at this
        have hxcs : x ∈ csi := List.elem_iff.mp hx
        have := this x (hcsi ▸ hxcs)
        simpa using this
    | succ i' =>
      cases j with
      | zero =>
        have hcsj : csj = cs := by symm; simpa using hj
        have him : csi ∈ rest := List.getElem?_mem (by simpa using hi)
        have hcs := hall csi him
        rw [List.all_eq_true] at hcs
        by_contra hcj
        have hcj' : csj.contains x = true := by
          cases hcc : csj.contains x
          · exact absurd hcc hcj
          · rfl
        have hxcs : x ∈ cs := hcsj ▸ List.elem_iff.mp hcj'
        have := hcs x hxcs
        rw [hx] at this
        cases this
      | succ j' =>
        exact ih hrest i' j' csi csj (fun he => hij (congrArg Nat.succ he))
          (by simpa using hi) (by simpa using hj) x hx

/-- Updating one ship flag keeps every cell list in place. -/
theorem set_preserves_cells (ships : List ShipState) (i : Nat) (s : ShipState) (b : Bool)
    (h : ships[i]? = some s) :
    (ships.set i { s with isKilled := b }).map (fun t => t.cells) =
      ships.map (fun t => t.cells) := by
  apply List.ext_getElem?
  intro n
  rw [List.getElem?_map, List.getElem?_map]
  by_cases hn : i = n
  · subst hn
    rw [List.getElem?_set_eq (lt_length_of_getElem? h), h]
    rfl
  · rw [List.getElem?_set_ne hn]

/-- `BattleField.hit` is the identity on an out-of-bounds coordinate
(`ValueError` raised before any mutation). -/
theorem bfHit_out_of_bounds (bf : BattleField) (c : Coord)
    (h1 : ¬ (inBounds c = true)) : bfHit bf c = bf := by
  unfold bfHit
  rw [if_pos h1]

/-- `BattleField.hit` is the identity on an already targeted cell. -/
theorem bfHit_targeted (bf : BattleField) (c : Coord)
    (h2 : ((bf.field c).isHit || (bf.field c).isMiss) = true) : bfHit bf c = bf := by
  unfold bfHit
  split
  · rfl
  · simp only [h2, if_true]

/-- On a fresh in-bounds cell, `BattleField.hit` is `Cell.hit`. -/
theorem bfHit_fresh (bf : BattleField) (c : Coord) (h1 : inBounds c = true)
    (h2 : ¬ (((bf.field c).isHit || (bf.field c).isMiss) = true)) :
    bfHit bf c = cellHit bf c := by
  unfold bfHit
  rw [if_neg (not_not_intro h1)]
  simp only [Bool.eq_false_iff.mpr h2, Bool.false_eq_true, if_false]

/-- One `BattleField.hit` never moves, adds or removes ship cells. -/
theorem bfHit_cells (bf : BattleField) (c : Coord) :
    (bfHit bf c).ships.map (fun t => t.cells) = bf.ships.map (fun t => t.cells) := by
  by_cases h1 : inBounds c = true
  · by_cases h2 : ((bf.field c).isHit || (bf.field c).isMiss) = true
    · rw [bfHit_targeted bf c h2]
    · rw [bfHit_fresh bf c h1 h2]
      unfold cellHit
      split
      · cases hidx : findShipIdx bf.ships c with
        | none => simp [hidx]
        | some i =>
          simp only [hidx]
          unfold checkKilled
          cases hsi : bf.ships[i]? with
          | none => simp [hsi]
          | some s =>
            simp only [hsi]
            split
            · exact set_preserves_cells bf.ships i s true hsi
            · exact set_preserves_cells bf.ships i s false hsi
      · rfl
  · rw [bfHit_out_of_bounds bf c h1]

/-- Positional reading of the sunk-ship invariant. -/
theorem shipInvB_eq_true_iff (bf : BattleField) : shipInvB bf = true ↔
    ∀ (j : Nat) (t : ShipState), bf.ships[j]? = some t →
      (t.isKilled = t.cells.all (fun c' => (bf.field c').isHit) ∧
       (t.isKilled = true → t.cells.all (fun c' => (bf.field c').isKilled) = true)) := by
  unfold shipInvB
  rw [List.all_eq_true]
  constructor
  · intro h j t ht
    have hmem : t ∈ bf.ships := List.getElem?_mem ht
    have hh := h t hmem
    rw [Bool.and_eq_true] at hh
    obtain ⟨ha, hb⟩ := hh
    refine ⟨beq_iff_eq.mp ha, ?_⟩
    intro hk
    rw [hk] at hb
    simpa using hb
  · intro h t hmem
    rcases List.getElem?_of_mem hmem with ⟨j, hj⟩
    obtain ⟨ha, hb⟩ := h j t hj
    rw [Bool.and_eq_true]
    constructor
    · rw [ha]
      exact beq_self_eq_true _
    · cases hk : t.isKilled
      · simp
      · simp only [Bool.not_true, Bool.false_or]
        exact hb hk

/-- Core preservation step for claim C10: one `BattleField.hit` call keeps
the sunk-ship invariant, given pairwise disjoint ships. -/
theorem bfHit_preserves_shipInv (bf : BattleField) (c : Coord)
    (hd : shipsDisjoint bf = true) (hi : shipInvB bf = true) :
    shipInvB (bfHit bf c) = true := by
  by_cases h1 : inBounds c = true
  case neg => rw [bfHit_out_of_bounds bf c h1]; exact hi
  by_cases h2 : ((bf.field c).isHit || (bf.field c).isMiss) = true
  case pos => rw [bfHit_targeted bf c h2]; exact hi
  rw [bfHit_fresh bf c h1 h2]
  unfold cellHit
  by_cases h3 : (bf.field c).isPartOfShip = true
  case neg =>
    rw [if_neg h3]
    rw [shipInvB_eq_true_iff] at hi ⊢
    intro j t ht
    have ht' : bf.ships[j]? = some t := ht
    obtain ⟨ha, hb⟩ := hi j t ht'
    constructor
    · show t.isKilled = t.cells.all (fun c' =>
        (updateCell bf.field c (fun cs => { cs with isMiss := true }) c').isHit)
      rw [ha]
      apply all_congr_list
      intro x hx
      unfold updateCell
      by_cases hxc : x = c <;> simp [hxc]
    · intro hk
      show t.cells.all (fun c' =>
        (updateCell bf.field c (fun cs => { cs with isMiss := true }) c').isKilled) = true
      have hall := hb hk
      rw [List.all_eq_true] at hall ⊢
      intro x hx
      have hxf := hall x hx
      unfold updateCell
      by_cases hxc : x = c
      · rw [hxc] at hxf
        simpa [hxc] using hxf
      · simpa [hxc] using hxf
  case pos =>
    rw [if_pos h3]
    cases hidx : findShipIdx bf.ships c with
    | none =>
      simp only [hidx]
      have hnone := findShipIdx_none bf.ships c hidx
      rw [shipInvB_eq_true_iff] at hi ⊢
      intro j t ht
      have ht' : bf.ships[j]? = some t := ht
      obtain ⟨ha, hb⟩ := hi j t ht'
      have htc : t.cells.contains c = false := hnone t (List.getElem?_mem ht')
      have hne : ∀ x ∈ t.cells, x ≠ c := by
        intro x hx hxc
        have hcc : t.cells.contains c = true := List.elem_iff.mpr (hxc ▸ hx)
        rw [htc] at hcc
        cases hcc
      constructor
      · show t.isKilled = t.cells.all (fun c' =>
          (updateCell bf.field c (fun cs => { cs with isHit := true }) c').isHit)
        rw [ha]
        apply all_congr_list
        intro x hx
        simp [updateCell, hne x hx]
      · intro hk
        show t.cells.all (fun c' =>
          (updateCell bf.field c (fun cs => { cs with isHit := true }) c').isKilled) = true
        have hall := hb hk
        rw [List.all_eq_true] at hall ⊢
        intro x hx
        have hxf := hall x hx
        simpa [updateCell, hne x hx] using hxf
    | some i =>
      simp only [hidx]
      obtain ⟨s, hsi, hsc⟩ := findShipIdx_some bf.ships c i hidx
      unfold checkKilled
      simp only [hsi]
      have hd2 : cellListsDisjoint (bf.ships.map (fun u => u.cells)) = true := hd
      have hdisj := cellListsDisjoint_two (bf.ships.map (fun u => u.cells)) hd2
      by_cases hall : s.cells.all (fun c' =>
          (updateCell bf.field c (fun cs => { cs with isHit := true }) c').isHit) = true
      · rw [if_pos hall]
        rw [shipInvB_eq_true_iff] at hi ⊢
        intro j t ht
        have ht' : (bf.ships.set i { s with isKilled := true })[j]? = some t := ht
        rw [List.getElem?_set] at ht'
        by_cases hij : i = j
        · rw [if_pos hij] at ht'
          rw [if_pos (show i < bf.ships.length from lt_length_of_getElem? hsi)] at ht'
          injection ht' with ht2
          subst ht2
          have hkill : ∀ x ∈ s.cells,
              killCells (updateCell bf.field c (fun cs => { cs with isHit := true }))
                s.cells x =
              { updateCell bf.field c (fun cs => { cs with isHit := true }) x with
                isKilled := true } := by
            intro x hx
            rw [killCells_apply, if_pos (List.elem_iff.mpr hx)]
          constructor
          · show true = s.cells.all (fun c' =>
              (killCells (updateCell bf.field c (fun cs => { cs with isHit := true }))
                s.cells c').isHit)
            rw [List.all_eq_true] at hall
            symm
            rw [List.all_eq_true]
            intro x hx
            rw [hkill x hx]
            exact hall x hx
          · intro _
            show s.cells.all (fun c' =>
              (killCells (updateCell bf.field c (fun cs => { cs with isHit := true }))
                s.cells c').isKilled) = true
            rw [List.all_eq_true]
            intro x hx
            rw [hkill x hx]
        · rw [if_neg hij] at ht'
          obtain ⟨ha, hb⟩ := hi j t ht'
          have hnotin : ∀ x ∈ t.cells, s.cells.contains x = false := by
            intro x hx
            cases hsx : s.cells.contains x
            · rfl
            · have hfx := hdisj i j s.cells t.cells hij
                (by rw [List.getElem?_map, hsi]; rfl)
                (by rw [List.getElem?_map, ht']; rfl) x hsx
              have hcc : t.cells.contains x = true := List.elem_iff.mpr hx
              rw [hfx] at hcc
              cases hcc
          have hfield : ∀ x ∈ t.cells,
              killCells (updateCell bf.field c (fun cs => { cs with isHit := true }))
                s.cells x = bf.field x := by
            intro x hx
            rw [killCells_apply, if_neg (by rw [hnotin x hx]; simp)]
            have hxc : x ≠ c := by
              intro he
              have hhc := hnotin x hx
              rw [he, hsc] at hhc
              cases hhc
            simp [updateCell, hxc]
          constructor
          · show t.isKilled = t.cells.all (fun c' =>
              (killCells (updateCell bf.field c (fun cs => { cs with isHit := true }))
                s.cells c').isHit)
            rw [ha]
            apply all_congr_list
            intro x hx
            rw [hfield x hx]
          · intro hk
            show t.cells.all (fun c' =>
              (killCells (updateCell bf.field c (fun cs => { cs with isHit := true }))
                s.cells c').isKilled) = true
            have hallk := hb hk
            rw [List.all_eq_true] at hallk ⊢
            intro x hx
            rw [hfield x hx]
            exact hallk x hx
      · rw [if_neg hall]
        rw [shipInvB_eq_true_iff] at hi ⊢
        intro j t ht
        have ht' : (bf.ships.set i { s with isKilled := false })[j]? = some t := ht
        rw [List.getElem?_set] at ht'
        by_cases hij : i = j
        · rw [if_pos hij] at ht'
          rw [if_pos (show i < bf.ships.length from lt_length_of_getElem? hsi)] at ht'
          injection ht' with ht2
          subst ht2
          constructor
          · show false = s.cells.all (fun c' =>
              (updateCell bf.field c (fun cs => { cs with isHit := true }) c').isHit)
            symm
            exact Bool.eq_false_iff.mpr hall
          · intro hk
            exact Bool.noConfusion hk
        · rw [if_neg hij] at ht'
          obtain ⟨ha, hb⟩ := hi j t ht'
          have hne : ∀ x ∈ t.cells, x ≠ c := by
            intro x hx he
            have hsx : s.cells.contains x = true := by rw [he]; exact hsc
            have hfx := hdisj i j s.cells t.cells hij
              (by rw [List.getElem?_map, hsi]; rfl)
              (by rw [List.getElem?_map, ht']; rfl) x hsx
            have hcc : t.cells.contains x = true := List.elem_iff.mpr hx
            rw [hfx] at hcc
            cases hcc
          constructor
          · show t.isKilled = t.cells.all (fun c' =>
              (updateCell bf.field c (fun cs => { cs with isHit := true }) c').isHit)
            rw [ha]
            apply all_congr_list
            intro x hx
            simp [updateCell, hne x hx]
          · intro hk
            show t.cells.all (fun c' =>
              (updateCell bf.field c (fun cs => { cs with isHit := true }) c').isKilled) = true
            have hallk := hb hk
            rw [List.all_eq_true] at hallk ⊢
            intro x hx
            have hxf := hallk x hx
            simpa [updateCell, hne x hx] using hxf

/-- Disjointness and the sunk-ship invariant survive any shot sequence. -/
theorem applyShots_preserves (shots : List Coord) : ∀ (bf : BattleField),
    shipsDisjoint bf = true → shipInvB bf = true →
    shipsDisjoint (applyShots bf shots) = true ∧ shipInvB (applyShots bf shots) = true := by
  induction shots with
  | nil => intro bf hd hi; exact ⟨hd, hi⟩
  | cons a rest ih =>
    intro bf hd hi
    have hstep : applyShots bf (a :: rest) = applyShots (bfHit bf a) rest := rfl
    rw [hstep]
    have hd' : shipsDisjoint (bfHit bf a) = true := by
      unfold shipsDisjoint
      rw [bfHit_cells]
      exact hd
    exact ih (bfHit bf a) hd' (bfHit_preserves_shipInv bf a hd hi)

/-- Under the sunk-ship invariant, `is_game_over` says exactly that every
cell of every ship is hit. -/
theorem isGameOver_eq_allHit (bf : BattleField) (hi : shipInvB bf = true) :
    isGameOver bf = allShipsAllHit bf := by
  unfold isGameOver allShipsAllHit
  apply all_congr_list
  intro s hs
  rcases List.getElem?_of_mem hs with ⟨j, hj⟩
  exact ((shipInvB_eq_true_iff bf).mp hi j s hj).1

/-- Claim C10 — sunk-ship invariant: starting from a battlefield whose
ships are pairwise disjoint and satisfy the invariant (as `_find_ships`
leaves them), any sequence of `BattleField.hit` calls preserves it: every
ship is flagged killed exactly when all its cells are hit, killed ships
have all cells marked killed, and `is_game_over` returns true exactly when
every cell of every ship is hit. -/
theorem hit_sequence_sunk_invariant (bf : BattleField) (shots : List Coord)
    (hd : shipsDisjoint bf = true) (hi : shipInvB bf = true) :
    shipInvB (applyShots bf shots) = true ∧
    isGameOver (applyShots bf shots) = allShipsAllHit (applyShots bf shots) := by
  obtain ⟨hd', hi'⟩ := applyShots_preserves shots bf hd hi
  exact ⟨hi', isGameOver_eq_allHit _ hi'⟩

/-- Witness for C10: sinking the single ship of `oneShipBoard` and also
shooting open water. -/
theorem hit_sequence_sunk_invariant_witness :
    shipInvB (applyShots oneShipBoard [(1, 0), (5, 5)]) = true ∧
    isGameOver (applyShots oneShipBoard [(1, 0), (5, 5)]) =
      allShipsAllHit (applyShots oneShipBoard [(1, 0), (5, 5)]) :=
  hit_sequence_sunk_invariant oneShipBoard [(1, 0), (5, 5)] (by decide) (by decide)

end Battleships
